import Mathlib

/-!
Verification development for the cgroup_analyzer interpretation engine.

The Python source is shallowly embedded over exact rational arithmetic:
a dataframe column is a `List ℚ` (the values of a `{cgroup}_{metric}`
column after `_safe_column`'s `fillna(0)`), and a derived rate series is a
`List (Option ℚ)` whose `none` entries model the `NaN` produced by
`Series.diff()` at the first row.  pandas statistics skip `NaN`
(`skipna=True`), which the embedding mirrors with `List.filterMap id`.
-/

set_option maxRecDepth 1000000

namespace CgroupVerify

/-- Arithmetic mean of a list of rationals (`Series.mean()` over the
non-missing values; the callers below always pass a nonempty list). -/
def meanQ (l : List ℚ) : ℚ := l.sum / (l.length : ℚ)

/-- Sample variance with `ddof=1`, i.e. the square of pandas `Series.std()`.
Working with the square avoids the irrational square root; every comparison
the source makes against a standard deviation is rephrased on squares. -/
def varQ (l : List ℚ) : ℚ :=
  ((l.map fun x => (x - meanQ l) ^ 2).sum) / ((l.length : ℚ) - 1)

/-- Linear-interpolation quantile of an ascending-sorted list, exactly as
`numpy`/pandas `quantile(q)` (interpolation="linear"): with `m` values the
virtual position is `p = q*(m-1)` and the result interpolates between the
entries at `⌊p⌋` and `⌊p⌋+1`. -/
def quantileSorted (xs : List ℚ) (q : ℚ) : ℚ :=
  let p : ℚ := q * ((xs.length : ℚ) - 1)
  let k : ℕ := (⌊p⌋).toNat
  let f : ℚ := Int.fract p
  xs.getD k 0 + f * (xs.getD (k + 1) 0 - xs.getD k 0)

/-- pandas `Series.quantile(q)`: sort the values ascending, then
linearly interpolate. -/
def quantileQ (xs : List ℚ) (q : ℚ) : ℚ :=
  quantileSorted (xs.insertionSort (· ≤ ·)) q

/-- `usage.diff() / elapsed.diff() / scale`: the discrete derivative of a
counter column with respect to elapsed time.  Entry 0 is `none` (pandas
`diff` yields `NaN` at the first row); entry `i > 0` is the finite
difference quotient. -/
def rateSeries (usage elapsed : List ℚ) (scale : ℚ) : List (Option ℚ) :=
  (List.range usage.length).map fun i =>
    if i = 0 then none
    else some ((usage.getD i 0 - usage.getD (i - 1) 0) /
      (elapsed.getD i 0 - elapsed.getD (i - 1) 0) / scale)

/-- One detected anomaly: `(timestamp, value, severity)` with severity
`"high"` or `"extreme"` (interpreter.py, detect_anomalies). -/
structure AnomalyEvent where
  timestamp : ℚ
  value : ℚ
  severity : String
deriving DecidableEq

/-- The per-series body of `CgroupInterpreter.detect_anomalies`
(interpreter.py lines 33-49): Q1/Q3 over the whole series, IQR bounds
`q3 + 1.5*iqr` and `q3 + 3.0*iqr`, and a one-sided strict comparison per
non-missing sample, tagging `extreme` before `high`. -/
def detectEvents (elapsed : List ℚ) (rates : List (Option ℚ)) : List AnomalyEvent :=
  let vals := rates.filterMap id
  let q1 := quantileQ vals (1/4)
  let q3 := quantileQ vals (3/4)
  let iqr := q3 - q1
  let upper := q3 + 3/2 * iqr
  let extreme := q3 + 3 * iqr
  (elapsed.zip rates).filterMap fun tv =>
    match tv.2 with
    | none => none
    | some v =>
      if extreme < v then some ⟨tv.1, v, "extreme"⟩
      else if upper < v then some ⟨tv.1, v, "high"⟩
      else none

/-- One temporal cluster of anomalies, with the exact fields the source
dict carries (interpreter.py, cluster_anomalies). -/
structure AnomalyCluster where
  start_time : ℚ
  end_time : ℚ
  max_value : ℚ
  timestamps : List ℚ
  values : List ℚ
  severities : List String
deriving DecidableEq

/-- A fresh cluster opened at one event (interpreter.py lines 101-108). -/
def initCluster (e : AnomalyEvent) : AnomalyCluster :=
  ⟨e.timestamp, e.timestamp, e.value, [e.timestamp], [e.value], [e.severity]⟩

/-- Extending the current cluster with one more event
(interpreter.py lines 113-117). -/
def extendCluster (c : AnomalyCluster) (e : AnomalyEvent) : AnomalyCluster :=
  ⟨c.start_time, e.timestamp, max c.max_value e.value,
    c.timestamps ++ [e.timestamp], c.values ++ [e.value],
    c.severities ++ [e.severity]⟩

/-- The greedy scan of `cluster_anomalies` (interpreter.py lines 110-131)
with `MAX_TIME_GAP = 10`: extend the open cluster when the event is
strictly closer than 10s to its `end_time`, else close it and open a new
one; the last open cluster is flushed at the end. -/
def clusterGo (c : AnomalyCluster) : List AnomalyEvent → List AnomalyCluster
  | [] => [c]
  | e :: es =>
    if e.timestamp - c.end_time < 10 then clusterGo (extendCluster c e) es
    else c :: clusterGo (initCluster e) es

/-- `cluster_anomalies` for one (cgroup, resource) event list: empty input
yields an empty cluster list (interpreter.py line 100). -/
def clusterEvents : List AnomalyEvent → List AnomalyCluster
  | [] => []
  | e :: es => clusterGo (initCluster e) es

/-- The structural invariant of an open or emitted cluster:
`start_time` is its first member timestamp, `end_time` its last, and
`max_value` the maximum of its member values. -/
def ClusterInv (c : AnomalyCluster) : Prop :=
  c.timestamps.head? = some c.start_time ∧
  c.timestamps.getLast? = some c.end_time ∧
  c.values.max? = some c.max_value

/-- Models pandas `cv = std/mean > t` (interpreter.py line 206 ff.) on the
non-missing rate values: since `std = √varQ ≥ 0` and the source only tests
`cv > t` for `t > 0` after guarding `mean > 0`, the test is equivalent to
`t² · mean² < varQ`, which stays in ℚ.  When `mean ≤ 0` the source sets
`cv = 0`, so no threshold is exceeded. -/
def cvExceeds (rates : List (Option ℚ)) (t : ℚ) : Bool :=
  let v := rates.filterMap id
  decide (0 < meanQ v ∧ t ^ 2 * meanQ v ^ 2 < varQ v)

/-- `Σ_t d[t] * d[t+k]`, the autocovariance-style sum shared by the
statsmodels `acf` call and the `np.correlate` fingerprint periodicity. -/
def acovSum (d : List ℚ) (k : ℕ) : ℚ :=
  ((d.zip (d.drop k)).map fun p => p.1 * p.2).sum

/-- `statsmodels.tsa.stattools.acf(y, nlags)` (default `adjusted=False`):
entry `k` is `c_k / c_0` with `c_k = Σ_t (y_t-ȳ)(y_{t+k}-ȳ)`. -/
def acfList (y : List ℚ) (nlags : ℕ) : List ℚ :=
  let d := y.map fun x => x - meanQ y
  (List.range (nlags + 1)).map fun k => acovSum d k / acovSum d 0

/-- `next((i for i, x in enumerate(lag_acf[1:], 1) if x > 0.5), None)`
(interpreter.py line 223): the smallest lag `≥ 1` whose autocorrelation
exceeds 0.5, if any. -/
def dominantLag (y : List ℚ) (nlags : ℕ) : Option ℕ :=
  Option.map Prod.fst
    (((acfList y nlags).enum.drop 1).find? fun p => decide ((1:ℚ)/2 < p.2))

/-- The cv decision tree of `identify_usage_patterns`
(interpreter.py lines 206-216), evaluated under the `len(usage) > 10`
guard (hoisted into `cpuPattern`):
`cv>1.5` → "bursty" when more than 10% of the samples exceed twice the
mean, else "variable"; `cv>0.5` → "moderate variability"; else "stable".
The bursty count ranges over the non-missing samples (a pandas comparison
with `NaN` is `False`) while `len(usage_rate)` counts every row. -/
def cpuPatternBase (usage elapsed : List ℚ) : String :=
  let rates := rateSeries usage elapsed 1000
  let v := rates.filterMap id
  let m := meanQ v
  if cvExceeds rates (3/2) then
    if ((v.filter fun x => decide (2 * m < x)).length : ℚ) > (rates.length : ℚ) / 10
    then "bursty" else "variable"
  else if cvExceeds rates (1/2) then "moderate variability"
  else "stable"

/-- `identify_usage_patterns`' CPU label (interpreter.py lines 193-228):
"unknown" with 10 or fewer samples; otherwise the cv-based label, to which
a periodicity annotation `" with periodicity (~k samples)"` is appended
whenever some autocorrelation lag in `1..min(50, n//2)` of the zero-filled
rate series exceeds 0.5 (`k` the smallest such lag). -/
def cpuPattern (usage elapsed : List ℚ) : String :=
  if usage.length > 10 then
    let rates := rateSeries usage elapsed 1000
    match dominantLag (rates.map fun r => r.getD 0) (min 50 (rates.length / 2)) with
    | some k =>
      cpuPatternBase usage elapsed ++ " with periodicity (~" ++ toString k ++ " samples)"
    | none => cpuPatternBase usage elapsed
  else "unknown"

/-- The `np.correlate`-based periodicity of `fingerprint_workload_patterns`
(visualization_utils.py lines 420-445): only attempted on more than 50
samples; the autocorrelation at lag `k ≤ min(n-1, 500)` is
`c_k / (std² · n)` (pandas std, `ddof=1`); strict local maxima above 0.2
are peaks, and the dominant period is the peak of largest value (stable
descending sort, so the smallest lag wins ties).  Returns
`(has_periodicity, dominant_period)`, defaulting to `(false, 0)`. -/
def fingerprintPeriodicity (y : List ℚ) : Bool × ℕ :=
  if y.length > 50 then
    let n := y.length
    let maxLag := min (n - 1) 500
    let d := y.map fun x => x - meanQ y
    let denom := varQ y * (n : ℚ)
    let autocorr := (List.range (maxLag + 1)).map fun k => acovSum d k / denom
    let peaks := ((List.range (maxLag + 1)).filter fun i =>
        decide (0 < i ∧ i + 1 < autocorr.length ∧
          autocorr.getD (i - 1) 0 < autocorr.getD i 0 ∧
          autocorr.getD (i + 1) 0 < autocorr.getD i 0 ∧
          (1:ℚ)/5 < autocorr.getD i 0)).map fun i => (i, autocorr.getD i 0)
    match peaks with
    | [] => (false, 0)
    | p :: ps =>
      let best := ps.foldl (fun b q => if b.2 < q.2 then q else b) p
      (true, best.1)
  else (false, 0)

/-- The per-cgroup columns `fingerprint_workload_patterns` reads, each as
delivered by `_safe_column` (missing column ⇒ all-zero series). -/
structure CgroupColumns where
  usage : List ℚ
  user : List ℚ
  system : List ℚ
  nr_bursts : List ℚ
  burst_usec : List ℚ
deriving DecidableEq

/-- The fingerprint record (visualization_utils.py lines 527-536), with
numeric fields kept as numbers rather than their `f"{x:.2f}"` renderings.
`memory_behavior` is computed by an independent code path that shares no
state with these fields and is not modelled here. -/
structure WorkloadFingerprint where
  workload_type : String
  burstiness : ℚ
  cpu_burst_tendency : String
  cpu_burst_score : ℚ
  cpu_system_user_ratio : ℚ
  has_periodicity : Bool
  dominant_period_lag : ℕ
deriving DecidableEq

/-- The initial workload label of `fingerprint_workload_patterns`
(visualization_utils.py lines 455-475): periodicity wins, then the label
branches on `pattern_type.startswith("Steady")`, then
`startswith("Bursty")`, and otherwise falls through to "Variable" with a
ratio-dependent suffix. -/
def workloadType0 (pdet : Bool × ℕ) (burstiness : ℚ) (pattern_type : String)
    (cycle_ratio : ℚ) : String :=
  if pdet.1 ∧ 0 < pdet.2 then
    if 5 < burstiness then "Periodic with bursts" else "Periodic"
  else if pattern_type.startsWith "Steady" then
    if 4/5 < cycle_ratio then "Continuous system-intensive"
    else "Continuous user-intensive"
  else if pattern_type.startsWith "Bursty" then "Batch processing"
  else if 4/5 < cycle_ratio then "Variable I/O-bound" else "Variable CPU-bound"

/-- The burst-accounting tail of `fingerprint_workload_patterns`
(visualization_utils.py lines 505-525): when the `cpu_nr_bursts` column's
maximum is positive, the last-row burst percentage picks the tendency
label and may append `" (burst-heavy)"` when `"burst"` does not already
occur in the lowercased workload label.  Returns
`(cpu_burst_tendency, cpu_burst_score, workload_type)`. -/
def burstSection (c : CgroupColumns) (wt0 : String) : String × ℚ × String :=
  if 0 < (c.nr_bursts.max?).getD 0 then
    let usage_last := c.usage.getLastD 0
    let burst_pct := c.burst_usec.getLastD 0 / max usage_last 1 * 100
    if 30 < burst_pct then
      ("High burst utilization", burst_pct,
        if 1 < ((wt0.toLower).splitOn "burst").length then wt0
        else wt0 ++ " (burst-heavy)")
    else if 10 < burst_pct then ("Moderate burst utilization", burst_pct, wt0)
    else ("Low burst utilization", burst_pct, wt0)
  else ("N/A", (0:ℚ), wt0)

/-- `fingerprint_workload_patterns` for one cgroup
(visualization_utils.py lines 404-536): the zero-filled rate series feeds
burstiness (`p95 / max(median, 0.001)`) and periodicity; the pattern label
comes from `identify_usage_patterns`; `cycle_ratio` is
`system/max(user,1)` guarded by `user > 0`; the workload label is
`workloadType0` adjusted by `burstSection`. -/
def fingerprint (elapsed : List ℚ) (c : CgroupColumns) : WorkloadFingerprint :=
  let usage_rate := (rateSeries c.usage elapsed 1000).map fun r => r.getD 0
  let pattern_type := cpuPattern c.usage elapsed
  let pdet := fingerprintPeriodicity usage_rate
  let burstiness := quantileQ usage_rate (19/20) / max (quantileQ usage_rate (1/2)) (1/1000)
  let user_t := c.user.getLastD 0
  let system_t := c.system.getLastD 0
  let cycle_ratio := if 0 < user_t then system_t / max user_t 1 else 0
  let wt0 := workloadType0 pdet burstiness pattern_type cycle_ratio
  let bres := burstSection c wt0
  { workload_type := bres.2.2
    burstiness := burstiness
    cpu_burst_tendency := bres.1
    cpu_burst_score := bres.2.1
    cpu_system_user_ratio := cycle_ratio
    has_periodicity := pdet.1
    dominant_period_lag := pdet.2 }

/-- The in-memory dataset an interpreter run sees: the `elapsed_sec`
column, the raw `{cgroup}_{metric}` columns, the detected cgroup list and
the `has_extended_metrics` flag (analyzer_core.py, `CgroupAnalyzer`). -/
structure Dataset where
  elapsed : List ℚ
  columns : List (String × List ℚ)
  cgroups : List String
  hasExt : Bool

/-- `CgroupAnalyzer._safe_column` (analyzer_core.py lines 62-67): the
named column when present, else an all-zero series of dataset length. -/
def Dataset.safeColumn (d : Dataset) (cg metric : String) : List ℚ :=
  (d.columns.lookup (cg ++ "_" ++ metric)).getD (List.replicate d.elapsed.length 0)

/-- The per-cgroup value stored in the `detect_anomalies` result dict. -/
structure CgroupAnomalies where
  cpu : List AnomalyEvent
  memory : List AnomalyEvent
deriving DecidableEq

/-- `CgroupInterpreter.detect_anomalies` (interpreter.py lines 14-79) as an
association list in cgroup order: a cgroup whose rate series has fewer
than 2 entries is `continue`d over, so — exactly as in the source — it
never receives a key in the result.  Memory detection runs only with
extended metrics and a nonempty memory rate series. -/
def detectAnomalies (d : Dataset) : List (String × CgroupAnomalies) :=
  d.cgroups.filterMap fun cg =>
    let rate := rateSeries (d.safeColumn cg "cpu_usage_usec") d.elapsed 1000
    if rate.length < 2 then none
    else
      let cpuEv := detectEvents d.elapsed rate
      let memEv :=
        if d.hasExt then
          let mrate := rateSeries
            ((d.safeColumn cg "memory_current").map fun x => x / (1024 * 1024)) d.elapsed 1
          if 0 < mrate.length then detectEvents d.elapsed mrate else []
        else []
      some (cg, ⟨cpuEv, memEv⟩)

/-- The per-cgroup value of the `cluster_anomalies` result dict. -/
structure CgroupClusters where
  cpu : List AnomalyCluster
  memory : List AnomalyCluster
deriving DecidableEq

/-- `CgroupInterpreter.cluster_anomalies` (interpreter.py lines 81-178):
for every cgroup it reads `anomalies[cgroup]` from the
`detect_anomalies` dict — a lookup that raises `KeyError` when the key is
absent, modelled as `Except.error`. -/
def clusterAnomalies (d : Dataset) : Except String (List (String × CgroupClusters)) :=
  let anoms := detectAnomalies d
  d.cgroups.mapM fun cg =>
    match anoms.lookup cg with
    | none => Except.error ("KeyError: " ++ cg)
    | some a =>
      Except.ok (cg, ⟨clusterEvents a.cpu,
        if d.hasExt then clusterEvents a.memory else []⟩)

/-! ## Concrete test inputs -/

/-- 12 samples at one-second spacing with a perfectly constant CPU rate of
100 ms/s: `cpu_usage_usec` grows by 100000 per second. -/
def c1usage : List ℚ :=
  [0, 100000, 200000, 300000, 400000, 500000,
    600000, 700000, 800000, 900000, 1000000, 1100000]

def c1elapsed : List ℚ := [0, 1, 2, 3, 4, 5, 6, 7, 8, 9, 10, 11]

def zeros12 : List ℚ := List.replicate 12 0

/-- Per-cgroup columns with the constant-rate usage counter and all-zero
user/system/burst columns (i.e. those columns absent from the table). -/
def c1cols : CgroupColumns := ⟨c1usage, zeros12, zeros12, zeros12, zeros12⟩

/-- One square-wave period of CPU rates: ten samples at 1400 ms/s then ten
at 600 ms/s. -/
def burstBlock : List ℚ := (List.replicate 10 (1400:ℚ)) ++ List.replicate 10 600

def c3rates : List ℚ := burstBlock ++ burstBlock

/-- 41 samples whose rate series is the slow square wave `c3rates`: low
coefficient of variation (cv² = 6400000/39 / 10⁶ ≈ 0.164 ≤ 0.25) but
autocorrelation ≈ 0.663 at lag 1. -/
def c3usage : List ℚ := (List.range 41).map fun i => 1000 * (c3rates.take i).sum

def c3elapsed : List ℚ := (List.range 41).map fun i => (i : ℚ)

def twoElapsed : List ℚ := [0, 1]

/-- Columns with total user time 0 and total system time 7. -/
def c4colsUserZero : CgroupColumns := ⟨[0, 1000000], [0, 0], [7, 7], [0, 0], [0, 0]⟩

/-- Columns with total user time 4 and total system time 7. -/
def c4colsUserFour : CgroupColumns := ⟨[0, 1000000], [4, 4], [7, 7], [0, 0], [0, 0]⟩

/-- A decreasing `cpu_usage_usec` counter: the rate series is negative. -/
def c8cols : CgroupColumns := ⟨[1000000, 0], [0, 0], [0, 0], [0, 0], [0, 0]⟩

/-- A table with a single row for one cgroup `g`. -/
def singleSampleDataset : Dataset :=
  { elapsed := [0]
    columns := [("g_cpu_usage_usec", [5])]
    cgroups := ["g"]
    hasExt := false }

/-- Spec scenario 2: events at t=5s and t=12s (gap 7s) and at t=30s
(gap 18s). -/
def evs5 : List AnomalyEvent := [⟨5, 1, "high"⟩, ⟨12, 2, "high"⟩, ⟨30, 3, "high"⟩]

def evs9 : List AnomalyEvent := [⟨5, 3, "high"⟩, ⟨12, 7, "extreme"⟩]

def flatElapsed : List ℚ := [0, 1, 2, 3]

/-- A perfectly flat rate series: the leading `NaN` from `diff`, then the
constant 5. -/
def flatRates : List (Option ℚ) := [none, some 5, some 5, some 5]

/-! ## Helper lemmas -/

theorem getD_mem_or_default (xs : List ℚ) (i : ℕ) :
    xs.getD i 0 ∈ xs ∨ xs.getD i 0 = 0 := by
  induction xs generalizing i with
  | nil => right; rfl
  | cons a l ih =>
    cases i with
    | zero => left; simp
    | succ j =>
      rcases ih j with h | h
      · left; rw [List.getD_cons_succ]; exact List.mem_cons_of_mem a h
      · right; rw [List.getD_cons_succ]; exact h

theorem getD_mem_of_lt (xs : List ℚ) (i : ℕ) (h : i < xs.length) :
    xs.getD i 0 ∈ xs := by
  rw [List.getD_eq_getElem xs 0 h]
  exact List.getElem_mem h

theorem getD_nonneg (xs : List ℚ) (h : ∀ x ∈ xs, 0 ≤ x) (i : ℕ) :
    0 ≤ xs.getD i 0 := by
  rcases getD_mem_or_default xs i with hm | h0
  · exact h _ hm
  · rw [h0]

theorem length_rateSeries (u e : List ℚ) (s : ℚ) :
    (rateSeries u e s).length = u.length := by
  simp [rateSeries]

/-- Interpolating a list all of whose entries equal `c` returns `c`
(for `0 ≤ q ≤ 1`). -/
theorem quantileSorted_const (xs : List ℚ) (c q : ℚ) (hne : xs ≠ [])
    (hall : ∀ x ∈ xs, x = c) (hq0 : 0 ≤ q) (hq1 : q ≤ 1) :
    quantileSorted xs q = c := by
  have hm : 1 ≤ xs.length := List.length_pos.mpr hne
  have hmQ : (1:ℚ) ≤ (xs.length : ℚ) := by exact_mod_cast hm
  set p : ℚ := q * ((xs.length : ℚ) - 1) with hp
  have hp0 : 0 ≤ p := mul_nonneg hq0 (by linarith)
  have hpm : p ≤ (xs.length : ℚ) - 1 := by
    calc p ≤ 1 * ((xs.length : ℚ) - 1) :=
          mul_le_mul_of_nonneg_right hq1 (by linarith)
    _ = (xs.length : ℚ) - 1 := one_mul _
  have hfl0 : 0 ≤ ⌊p⌋ := Int.floor_nonneg.mpr hp0
  set k : ℕ := (⌊p⌋).toNat with hk
  have hkQ : (k : ℚ) ≤ p := by
    have h1 : ((k : ℤ) : ℚ) ≤ p := by
      rw [hk, Int.toNat_of_nonneg hfl0]; exact Int.floor_le p
    exact_mod_cast h1
  have hkm : k < xs.length := by
    have h1 : (k : ℚ) < (xs.length : ℚ) := by linarith
    exact_mod_cast h1
  have hrfl : quantileSorted xs q =
      xs.getD k 0 + Int.fract p * (xs.getD (k + 1) 0 - xs.getD k 0) := rfl
  have hc1 : xs.getD k 0 = c := hall _ (getD_mem_of_lt xs k hkm)
  rcases Nat.lt_or_ge (k + 1) xs.length with h2 | h2
  · have hc2 : xs.getD (k + 1) 0 = c := hall _ (getD_mem_of_lt xs (k + 1) h2)
    rw [hrfl, hc1, hc2]; ring
  · have hkeq : k = xs.length - 1 := by omega
    have hpk : p = (k : ℚ) := by
      have hcast : ((xs.length - 1 : ℕ) : ℚ) = (xs.length : ℚ) - 1 :=
        Nat.cast_sub hm
      have : p ≤ (k : ℚ) := by rw [hkeq, hcast]; exact hpm
      linarith
    have hfract : Int.fract p = 0 := by rw [hpk]; exact Int.fract_natCast k
    rw [hrfl, hfract, hc1]; ring

theorem quantileQ_const (xs : List ℚ) (c q : ℚ) (hne : xs ≠ [])
    (hall : ∀ x ∈ xs, x = c) (hq0 : 0 ≤ q) (hq1 : q ≤ 1) :
    quantileQ xs q = c := by
  refine quantileSorted_const _ c q ?_ ?_ hq0 hq1
  · intro h
    apply hne
    have hlen := List.length_insertionSort (· ≤ ·) xs
    rw [h] at hlen
    exact List.length_eq_zero.mp hlen.symm
  · intro x hx
    exact hall x ((List.mem_insertionSort (· ≤ ·)).mp hx)

theorem quantileSorted_nonneg (xs : List ℚ) (q : ℚ)
    (h : ∀ x ∈ xs, 0 ≤ x) : 0 ≤ quantileSorted xs q := by
  have hrfl : quantileSorted xs q =
      xs.getD ((⌊q * ((xs.length : ℚ) - 1)⌋).toNat) 0 +
        Int.fract (q * ((xs.length : ℚ) - 1)) *
          (xs.getD ((⌊q * ((xs.length : ℚ) - 1)⌋).toNat + 1) 0 -
            xs.getD ((⌊q * ((xs.length : ℚ) - 1)⌋).toNat) 0) := rfl
  rw [hrfl]
  have ha := getD_nonneg xs h ((⌊q * ((xs.length : ℚ) - 1)⌋).toNat)
  have hb := getD_nonneg xs h ((⌊q * ((xs.length : ℚ) - 1)⌋).toNat + 1)
  have hf0 := Int.fract_nonneg (q * ((xs.length : ℚ) - 1))
  have hf1 := le_of_lt (Int.fract_lt_one (q * ((xs.length : ℚ) - 1)))
  nlinarith

theorem quantileQ_nonneg (xs : List ℚ) (q : ℚ) (h : ∀ x ∈ xs, 0 ≤ x) :
    0 ≤ quantileQ xs q :=
  quantileSorted_nonneg _ q fun x hx =>
    h x ((List.mem_insertionSort (· ≤ ·)).mp hx)

/-- Failing the `cv > 0.5` test entails failing the `cv > 1.5` test. -/
theorem cvExceeds_anti (rates : List (Option ℚ))
    (h : cvExceeds rates (1/2) = false) : cvExceeds rates (3/2) = false := by
  unfold cvExceeds at h ⊢
  rw [decide_eq_false_iff_not] at h ⊢
  rintro ⟨hm, hv⟩
  refine h ⟨hm, ?_⟩
  nlinarith [sq_nonneg (meanQ (rates.filterMap id))]

/-- Zeta-reduced view of `cpuPatternBase`. -/
theorem cpuPatternBase_eq (u e : List ℚ) :
    cpuPatternBase u e =
      if cvExceeds (rateSeries u e 1000) (3/2) then
        if (((rateSeries u e 1000).filterMap id).filter (fun x =>
              decide (2 * meanQ ((rateSeries u e 1000).filterMap id) < x))).length >
            ((rateSeries u e 1000).length : ℚ) / 10
        then "bursty" else "variable"
      else if cvExceeds (rateSeries u e 1000) (1/2) then "moderate variability"
      else "stable" := rfl

/-- Zeta-reduced view of `cpuPattern`. -/
theorem cpuPattern_eq (u e : List ℚ) :
    cpuPattern u e =
      if u.length > 10 then
        match dominantLag ((rateSeries u e 1000).map fun r => r.getD 0)
            (min 50 ((rateSeries u e 1000).length / 2)) with
        | some k =>
          cpuPatternBase u e ++ " with periodicity (~" ++ toString k ++ " samples)"
        | none => cpuPatternBase u e
      else "unknown" := rfl

/-- Zeta-reduced view of `detectEvents`. -/
theorem detectEvents_eq (elapsed : List ℚ) (rates : List (Option ℚ)) :
    detectEvents elapsed rates =
      (elapsed.zip rates).filterMap fun tv =>
        match tv.2 with
        | none => none
        | some v =>
          if quantileQ (rates.filterMap id) (3/4) +
              3 * (quantileQ (rates.filterMap id) (3/4) -
                quantileQ (rates.filterMap id) (1/4)) < v
          then some ⟨tv.1, v, "extreme"⟩
          else if quantileQ (rates.filterMap id) (3/4) +
              3/2 * (quantileQ (rates.filterMap id) (3/4) -
                quantileQ (rates.filterMap id) (1/4)) < v
          then some ⟨tv.1, v, "high"⟩
          else none := rfl

theorem clusterGo_head_start (es : List AnomalyEvent) (c : AnomalyCluster) :
    ∃ d l, clusterGo c es = d :: l ∧ d.start_time = c.start_time := by
  induction es generalizing c with
  | nil => exact ⟨c, [], rfl, rfl⟩
  | cons e es ih =>
    by_cases h : e.timestamp - c.end_time < 10
    · obtain ⟨d, l, hdl, hstart⟩ := ih (extendCluster c e)
      refine ⟨d, l, ?_, hstart⟩
      rw [clusterGo, if_pos h, hdl]
    · exact ⟨c, clusterGo (initCluster e) es, by rw [clusterGo, if_neg h], rfl⟩

theorem clusterInv_init (e : AnomalyEvent) : ClusterInv (initCluster e) :=
  ⟨rfl, rfl, rfl⟩

theorem clusterInv_extend (c : AnomalyCluster) (e : AnomalyEvent)
    (h : ClusterInv c) : ClusterInv (extendCluster c e) := by
  obtain ⟨h1, h2, h3⟩ := h
  refine ⟨?_, ?_, ?_⟩
  · show (c.timestamps ++ [e.timestamp]).head? = some c.start_time
    rcases hts : c.timestamps with _ | ⟨a, ts⟩
    · rw [hts] at h1; exact absurd h1 (by simp)
    · rw [hts] at h1
      simpa using h1
  · show (c.timestamps ++ [e.timestamp]).getLast? = some e.timestamp
    exact List.getLast?_concat _
  · show (c.values ++ [e.value]).max? = some (max c.max_value e.value)
    rcases hvs : c.values with _ | ⟨b, vs⟩
    · rw [hvs] at h3; exact absurd h3 (by simp [List.max?])
    · rw [hvs] at h3
      have hb : (b :: vs).max? = some (vs.foldl max b) := rfl
      rw [hb] at h3
      have hmv : c.max_value = vs.foldl max b := by
        injection h3 with h3'; exact h3'.symm
      show ((b :: vs) ++ [e.value]).max? = some (max c.max_value e.value)
      have : ((b :: vs) ++ [e.value]).max? =
          some (List.foldl max b (vs ++ [e.value])) := rfl
      rw [this, List.foldl_append, hmv]
      rfl

theorem clusterGo_inv (es : List AnomalyEvent) (c : AnomalyCluster)
    (hc : ClusterInv c) : ∀ x ∈ clusterGo c es, ClusterInv x := by
  induction es generalizing c with
  | nil =>
    intro x hx
    rw [clusterGo] at hx
    rcases List.mem_singleton.mp hx with rfl
    exact hc
  | cons e es ih =>
    intro x hx
    by_cases h : e.timestamp - c.end_time < 10
    · rw [clusterGo, if_pos h] at hx
      exact ih (extendCluster c e) (clusterInv_extend c e hc) x hx
    · rw [clusterGo, if_neg h] at hx
      rcases List.mem_cons.mp hx with rfl | hx'
      · exact hc
      · exact ih (initCluster e) (clusterInv_init e) x hx'

/-- Greedy-scan invariant for the gap rule: emitted clusters are separated
by at least the 10s threshold, and inside any cluster consecutive member
timestamps are strictly closer than 10s. -/
theorem clusterGo_chain (es : List AnomalyEvent) (c : AnomalyCluster)
    (hc : ClusterInv c)
    (hw : List.Chain' (fun s t => t - s < 10) c.timestamps) :
    List.Chain' (fun a b => 10 ≤ b.start_time - a.end_time) (clusterGo c es) ∧
    ∀ x ∈ clusterGo c es, List.Chain' (fun s t => t - s < 10) x.timestamps := by
  induction es generalizing c with
  | nil =>
    refine ⟨?_, ?_⟩
    · rw [clusterGo]; exact List.chain'_singleton c
    · intro x hx
      rw [clusterGo] at hx
      rcases List.mem_singleton.mp hx with rfl
      exact hw
  | cons e es ih =>
    by_cases h : e.timestamp - c.end_time < 10
    · have hw' : List.Chain' (fun s t => t - s < 10)
          (extendCluster c e).timestamps := by
        show List.Chain' (fun s t => t - s < 10) (c.timestamps ++ [e.timestamp])
        rw [List.chain'_append]
        refine ⟨hw, List.chain'_singleton _, ?_⟩
        intro x hx y hy
        rw [hc.2.1] at hx
        rcases Option.mem_some_iff.mp hx with rfl
        rcases Option.mem_some_iff.mp (by simpa using hy) with rfl
        exact h
      have := ih (extendCluster c e) (clusterInv_extend c e hc) hw'
      rw [clusterGo, if_pos h]
      exact this
    · have hrest := ih (initCluster e) (clusterInv_init e)
        (List.chain'_singleton _)
      rw [clusterGo, if_neg h]
      refine ⟨?_, ?_⟩
      · rw [List.chain'_cons']
        refine ⟨?_, hrest.1⟩
        intro b hb
        obtain ⟨d, l, hdl, hstart⟩ := clusterGo_head_start es (initCluster e)
        rw [hdl] at hb
        rcases Option.mem_some_iff.mp (by simpa using hb) with rfl
        rw [hstart]
        show 10 ≤ e.timestamp - c.end_time
        linarith [not_lt.mp h]
      · intro x hx
        rcases List.mem_cons.mp hx with rfl | hx'
        · exact hw
        · exact hrest.2 x hx'

/-- The scan emits the members of the open cluster followed by every input
event, once each and in order, for any projection that reads one member
field. -/
theorem clusterGo_flat {α : Type} (proj : AnomalyCluster → List α)
    (f : AnomalyEvent → α)
    (hinit : ∀ e, proj (initCluster e) = [f e])
    (hext : ∀ cl e, proj (extendCluster cl e) = proj cl ++ [f e]) :
    ∀ (es : List AnomalyEvent) (cl : AnomalyCluster),
      ((clusterGo cl es).map proj).flatten = proj cl ++ es.map f := by
  intro es
  induction es with
  | nil => intro cl; rw [clusterGo]; simp
  | cons e es ih =>
    intro cl
    by_cases h : e.timestamp - cl.end_time < 10
    · rw [clusterGo, if_pos h, ih, hext]
      simp
    · rw [clusterGo, if_neg h]
      simp only [List.map_cons, List.flatten_cons]
      rw [ih, hinit]
      simp

/-- Without detected periodicity the initial workload label is one of the
five non-periodic literals. -/
theorem workloadType0_no_periodicity (pdet : Bool × ℕ) (b : ℚ) (p : String)
    (r : ℚ) (h : pdet.1 = false) :
    workloadType0 pdet b p r = "Continuous system-intensive" ∨
    workloadType0 pdet b p r = "Continuous user-intensive" ∨
    workloadType0 pdet b p r = "Batch processing" ∨
    workloadType0 pdet b p r = "Variable I/O-bound" ∨
    workloadType0 pdet b p r = "Variable CPU-bound" := by
  unfold workloadType0
  rw [if_neg (by simp [h])]
  split_ifs <;> simp

/-- The burst section either keeps the workload label or appends
`" (burst-heavy)"`. -/
theorem burstSection_workload (c : CgroupColumns) (wt0 : String) :
    (burstSection c wt0).2.2 = wt0 ∨
    (burstSection c wt0).2.2 = wt0 ++ " (burst-heavy)" := by
  unfold burstSection
  dsimp only []
  split_ifs
  all_goals first | (left; rfl) | (right; rfl)

theorem chain'_getD {R : ℚ → ℚ → Prop} {l : List ℚ} (h : List.Chain' R l)
    {i : ℕ} (hi : i + 1 < l.length) : R (l.getD i 0) (l.getD (i + 1) 0) := by
  have h2 := List.chain'_iff_get.mp h i (by omega)
  rwa [List.get_eq_getElem, List.get_eq_getElem,
    ← List.getD_eq_getElem l 0 (by omega : i < l.length),
    ← List.getD_eq_getElem l 0 hi] at h2

/-- With a nondecreasing counter and strictly increasing elapsed time,
every entry of the zero-filled rate series is nonnegative. -/
theorem rateSeries_nonneg (u e : List ℚ) (hlen : e.length = u.length)
    (hu : List.Chain' (· ≤ ·) u) (he : List.Chain' (· < ·) e) :
    ∀ x ∈ (rateSeries u e 1000).map fun r => r.getD 0, 0 ≤ x := by
  intro x hx
  rw [List.mem_map] at hx
  obtain ⟨r, hr, hxr⟩ := hx
  rw [rateSeries, List.mem_map] at hr
  obtain ⟨i, hi, hir⟩ := hr
  rw [List.mem_range] at hi
  by_cases h0 : i = 0
  · rw [h0, if_pos rfl] at hir
    rw [← hir] at hxr
    have hx0 : x = 0 := by simpa using hxr.symm
    exact le_of_eq hx0.symm
  · rw [if_neg h0] at hir
    rw [← hir] at hxr
    have hi1 : i - 1 + 1 = i := Nat.succ_pred_eq_of_pos (Nat.pos_of_ne_zero h0)
    have hnum : 0 ≤ u.getD i 0 - u.getD (i - 1) 0 := by
      have hstep := chain'_getD hu (i := i - 1) (by omega)
      rw [hi1] at hstep
      exact sub_nonneg.mpr hstep
    have hden : 0 < e.getD i 0 - e.getD (i - 1) 0 := by
      have hstep := chain'_getD he (i := i - 1) (by rw [hlen]; omega)
      rw [hi1] at hstep
      exact sub_pos.mpr hstep
    rw [← hxr]
    exact div_nonneg (div_nonneg hnum hden.le) (by norm_num)

/-! ## Claim theorems -/

/-- C1: with no periodicity detected, a cgroup whose CPU pattern is the
steady-family label "stable" and whose system/user ratio is at most 0.8
receives workload_type "Variable CPU-bound" — not the "Continuous
user-intensive" the claim requires — because `fingerprint_workload_patterns`
compares `pattern_type` against the capitalized prefixes "Steady"/"Bursty"
that `identify_usage_patterns` never emits. -/
theorem fingerprint_steady_pattern_yields_variable :
    cpuPattern c1usage c1elapsed = "stable" ∧
    (fingerprint c1elapsed c1cols).has_periodicity = false ∧
    (fingerprint c1elapsed c1cols).cpu_system_user_ratio ≤ 4/5 ∧
    (fingerprint c1elapsed c1cols).workload_type = "Variable CPU-bound" := by
  with_unfolding_all decide

/-- C2: on a single-row dataset, `detect_anomalies` skips the cgroup via
`continue` before ever storing its key, so the cgroup records zero anomaly
events; `cluster_anomalies` then evaluates `anomalies[cgroup]` and raises
`KeyError` instead of completing. -/
theorem single_sample_pipeline_keyerror :
    detectAnomalies singleSampleDataset = [] ∧
    clusterAnomalies singleSampleDataset = Except.error "KeyError: g" := by
  constructor
  · with_unfolding_all rfl
  · with_unfolding_all rfl

/-- C3 (amended): a CPU rate series with at least 11 samples and cv ≤ 0.5
is classified "stable", and the periodicity check runs independently of
that label: with no autocorrelation lag in `1..min(50, n//2)` above 0.5
the pattern is exactly "stable", while with such a lag the suffix
`" with periodicity (~k samples)"` (k the smallest such lag) is appended
even to "stable". -/
theorem stable_pattern_periodicity (u e : List ℚ) (h10 : u.length > 10)
    (hcv : cvExceeds (rateSeries u e 1000) (1/2) = false) :
    (dominantLag ((rateSeries u e 1000).map fun r => r.getD 0)
        (min 50 ((rateSeries u e 1000).length / 2)) = none →
      cpuPattern u e = "stable") ∧
    ∀ k, dominantLag ((rateSeries u e 1000).map fun r => r.getD 0)
        (min 50 ((rateSeries u e 1000).length / 2)) = some k →
      cpuPattern u e = "stable with periodicity (~" ++ toString k ++ " samples)" := by
  have hbase : cpuPatternBase u e = "stable" := by
    rw [cpuPatternBase_eq, cvExceeds_anti _ hcv, hcv]
    rfl
  constructor
  · intro hnone
    rw [cpuPattern_eq, if_pos h10, hnone, hbase]
  · intro k hk
    rw [cpuPattern_eq, if_pos h10, hk, hbase]
    rw [show ("stable" ++ " with periodicity (~") = "stable with periodicity (~"
      by with_unfolding_all rfl]

theorem stable_pattern_periodicity_witness :
    cpuPattern c1usage c1elapsed = "stable" :=
  (stable_pattern_periodicity c1usage c1elapsed (by with_unfolding_all decide)
    (by with_unfolding_all decide)).1 (by with_unfolding_all decide)

/-- C3 counterexample: `c3usage` has 41 samples, its cv gate yields the
base label "stable" (cv ≤ 0.5), yet its lag-1 autocorrelation exceeds 0.5,
so the classified pattern is "stable with periodicity (~1 samples)" — not
exactly "stable" as the claim states. -/
theorem stable_series_gains_periodicity_suffix :
    cpuPatternBase c3usage c3elapsed = "stable" ∧
    cvExceeds (rateSeries c3usage c3elapsed 1000) (1/2) = false ∧
    cpuPattern c3usage c3elapsed ≠ "stable" ∧
    cpuPattern c3usage c3elapsed = "stable with periodicity (~1 samples)" := by
  with_unfolding_all decide

/-- C4 (amended): the fingerprint's cpu_system_user_ratio is
`S / max(U, 1)` only when the total user time `U` is positive (hence
`S / U` whenever `U ≥ 1`); when `U ≤ 0` — in particular when the user
counter is zero — the source's `if user_time > 0 else 0` guard makes the
ratio 0, not S. -/
theorem cycle_ratio_formula (e : List ℚ) (c : CgroupColumns) :
    (c.user.getLastD 0 ≤ 0 → (fingerprint e c).cpu_system_user_ratio = 0) ∧
    (1 ≤ c.user.getLastD 0 →
      (fingerprint e c).cpu_system_user_ratio =
        c.system.getLastD 0 / c.user.getLastD 0) := by
  have hr : (fingerprint e c).cpu_system_user_ratio =
      if 0 < c.user.getLastD 0 then
        c.system.getLastD 0 / max (c.user.getLastD 0) 1
      else 0 := rfl
  constructor
  · intro h
    rw [hr, if_neg (not_lt.mpr h)]
  · intro h
    rw [hr, if_pos (lt_of_lt_of_le one_pos h), max_eq_left h]

theorem cycle_ratio_formula_witness :
    (fingerprint twoElapsed c4colsUserFour).cpu_system_user_ratio =
      c4colsUserFour.system.getLastD 0 / c4colsUserFour.user.getLastD 0 :=
  (cycle_ratio_formula twoElapsed c4colsUserFour).2 (by with_unfolding_all decide)

/-- C4 counterexample: with total user time 0 and total system time 7 the
claimed formula `S / max(U, 1)` evaluates to 7, but the code's fingerprint
reports ratio 0. -/
theorem cycle_ratio_zero_user_counterexample :
    (fingerprint twoElapsed c4colsUserZero).cpu_system_user_ratio ≠
      c4colsUserZero.system.getLastD 0 / max (c4colsUserZero.user.getLastD 0) 1 := by
  with_unfolding_all decide

/-- C5: the clusterer extends the open cluster exactly on a gap strictly
below 10s: inside every produced cluster consecutive member timestamps
differ by less than 10s, and adjacent clusters satisfy
`next.start_time - prev.end_time ≥ 10s` (a gap of exactly 10s having
started a new cluster). -/
theorem cluster_gap_rule (evs : List AnomalyEvent)
    (hsorted : List.Chain' (fun a b => a.timestamp ≤ b.timestamp) evs) :
    List.Chain' (fun a b => 10 ≤ b.start_time - a.end_time) (clusterEvents evs) ∧
    ∀ x ∈ clusterEvents evs, List.Chain' (fun s t => t - s < 10) x.timestamps := by
  cases evs with
  | nil =>
    constructor
    · rw [clusterEvents]; exact List.chain'_nil
    · intro x hx; rw [clusterEvents] at hx; exact absurd hx (List.not_mem_nil x)
  | cons e es =>
    rw [clusterEvents]
    exact clusterGo_chain es (initCluster e) (clusterInv_init e)
      (List.chain'_singleton _)

theorem cluster_gap_rule_witness :
    List.Chain' (fun a b => 10 ≤ b.start_time - a.end_time) (clusterEvents evs5) ∧
    ∀ x ∈ clusterEvents evs5, List.Chain' (fun s t => t - s < 10) x.timestamps :=
  cluster_gap_rule evs5 (by norm_num [evs5, List.chain'_cons])

/-- C6: the produced clusters partition the input event list: the
concatenation of the member timestamps, values and severities over the
clusters, in order, is exactly the input's — so every event lands in
exactly one cluster, none dropped, none duplicated — and the empty input
yields the empty cluster list. -/
theorem cluster_partition (evs : List AnomalyEvent) :
    ((clusterEvents evs).map AnomalyCluster.timestamps).flatten =
      evs.map AnomalyEvent.timestamp ∧
    ((clusterEvents evs).map AnomalyCluster.values).flatten =
      evs.map AnomalyEvent.value ∧
    ((clusterEvents evs).map AnomalyCluster.severities).flatten =
      evs.map AnomalyEvent.severity ∧
    clusterEvents ([] : List AnomalyEvent) = [] := by
  refine ⟨?_, ?_, ?_, rfl⟩
  · cases evs with
    | nil => rfl
    | cons e es =>
      rw [clusterEvents,
        clusterGo_flat AnomalyCluster.timestamps AnomalyEvent.timestamp
          (fun _ => rfl) (fun _ _ => rfl) es (initCluster e)]
      rfl
  · cases evs with
    | nil => rfl
    | cons e es =>
      rw [clusterEvents,
        clusterGo_flat AnomalyCluster.values AnomalyEvent.value
          (fun _ => rfl) (fun _ _ => rfl) es (initCluster e)]
      rfl
  · cases evs with
    | nil => rfl
    | cons e es =>
      rw [clusterEvents,
        clusterGo_flat AnomalyCluster.severities AnomalyEvent.severity
          (fun _ => rfl) (fun _ _ => rfl) es (initCluster e)]
      rfl

/-- C7: when every non-missing rate value equals the same constant `c`,
Q3 − Q1 = 0, both outlier bounds collapse to `c` itself, and — the
comparisons being strict — detection emits no anomaly event. -/
theorem flat_series_no_anomalies (elapsed : List ℚ) (rates : List (Option ℚ))
    (c : ℚ) (hne : rates.filterMap id ≠ [])
    (hc : ∀ v ∈ rates.filterMap id, v = c) :
    quantileQ (rates.filterMap id) (3/4) - quantileQ (rates.filterMap id) (1/4) = 0 ∧
    quantileQ (rates.filterMap id) (3/4) +
      3/2 * (quantileQ (rates.filterMap id) (3/4) -
        quantileQ (rates.filterMap id) (1/4)) = c ∧
    quantileQ (rates.filterMap id) (3/4) +
      3 * (quantileQ (rates.filterMap id) (3/4) -
        quantileQ (rates.filterMap id) (1/4)) = c ∧
    detectEvents elapsed rates = [] := by
  have h3 : quantileQ (rates.filterMap id) (3/4) = c :=
    quantileQ_const _ c _ hne hc (by norm_num) (by norm_num)
  have h1 : quantileQ (rates.filterMap id) (1/4) = c :=
    quantileQ_const _ c _ hne hc (by norm_num) (by norm_num)
  refine ⟨by rw [h3, h1]; ring, by rw [h3, h1]; ring, by rw [h3, h1]; ring, ?_⟩
  rw [detectEvents_eq, List.filterMap_eq_nil_iff]
  intro tv htv
  rcases tv with ⟨t, v?⟩
  rcases v? with _ | v
  · rfl
  · have hv : v ∈ rates.filterMap id := by
      have hmem : (some v) ∈ rates := (List.of_mem_zip htv).2
      exact List.mem_filterMap.mpr ⟨some v, hmem, rfl⟩
    have hvc : v = c := hc v hv
    dsimp only
    rw [hvc, h3, h1, sub_self, mul_zero, add_zero, mul_zero, add_zero,
      if_neg (lt_irrefl c), if_neg (lt_irrefl c)]

theorem flat_series_no_anomalies_witness :
    quantileQ (flatRates.filterMap id) (3/4) -
      quantileQ (flatRates.filterMap id) (1/4) = 0 ∧
    quantileQ (flatRates.filterMap id) (3/4) +
      3/2 * (quantileQ (flatRates.filterMap id) (3/4) -
        quantileQ (flatRates.filterMap id) (1/4)) = 5 ∧
    quantileQ (flatRates.filterMap id) (3/4) +
      3 * (quantileQ (flatRates.filterMap id) (3/4) -
        quantileQ (flatRates.filterMap id) (1/4)) = 5 ∧
    detectEvents flatElapsed flatRates = [] :=
  flat_series_no_anomalies flatElapsed flatRates 5
    (by with_unfolding_all decide) (by with_unfolding_all decide)

/-- C8 (amended): the fingerprint's burstiness is exactly
`p95 / max(median, 0.001)` of the zero-filled rate series, and it is
nonnegative whenever the usage counter is nondecreasing and elapsed time
strictly increases — the data model's monotone-counter invariant; a
decreasing counter can make it negative. -/
theorem burstiness_nonneg_of_monotone (e : List ℚ) (c : CgroupColumns)
    (hlen : e.length = c.usage.length)
    (hu : List.Chain' (· ≤ ·) c.usage) (he : List.Chain' (· < ·) e) :
    (fingerprint e c).burstiness =
      quantileQ ((rateSeries c.usage e 1000).map fun r => r.getD 0) (19/20) /
        max (quantileQ ((rateSeries c.usage e 1000).map fun r => r.getD 0) (1/2))
          (1/1000) ∧
    0 ≤ (fingerprint e c).burstiness := by
  have hb : (fingerprint e c).burstiness =
      quantileQ ((rateSeries c.usage e 1000).map fun r => r.getD 0) (19/20) /
        max (quantileQ ((rateSeries c.usage e 1000).map fun r => r.getD 0) (1/2))
          (1/1000) := rfl
  refine ⟨hb, ?_⟩
  rw [hb]
  have hnn := rateSeries_nonneg c.usage e hlen hu he
  refine div_nonneg (quantileQ_nonneg _ _ hnn) ?_
  exact le_trans (by norm_num) (le_max_right _ (1/1000))

theorem burstiness_nonneg_of_monotone_witness :
    (fingerprint c1elapsed c1cols).burstiness =
      quantileQ ((rateSeries c1cols.usage c1elapsed 1000).map fun r => r.getD 0)
          (19/20) /
        max (quantileQ ((rateSeries c1cols.usage c1elapsed 1000).map
            fun r => r.getD 0) (1/2)) (1/1000) ∧
    0 ≤ (fingerprint c1elapsed c1cols).burstiness :=
  burstiness_nonneg_of_monotone c1elapsed c1cols (by with_unfolding_all decide)
    (by norm_num [c1cols, c1usage, List.chain'_cons])
    (by norm_num [c1elapsed, List.chain'_cons])

/-- C8 counterexample: a dataset whose usage counter decreases (a
syntactically valid table) yields a strictly negative burstiness, so
"burstiness ≥ 0 for all outputs" fails without the monotone-counter
hypothesis. -/
theorem burstiness_negative_counterexample :
    (fingerprint twoElapsed c8cols).burstiness < 0 := by
  with_unfolding_all decide

/-- C9: every produced cluster's start_time is the timestamp of its first
member, its end_time the timestamp of its last member, and its max_value
the maximum of its member values. -/
theorem cluster_field_invariants (evs : List AnomalyEvent) (c : AnomalyCluster)
    (hc : c ∈ clusterEvents evs) :
    c.timestamps.head? = some c.start_time ∧
    c.timestamps.getLast? = some c.end_time ∧
    c.values.max? = some c.max_value := by
  cases evs with
  | nil => rw [clusterEvents] at hc; exact absurd hc (List.not_mem_nil c)
  | cons e es =>
    rw [clusterEvents] at hc
    exact clusterGo_inv es (initCluster e) (clusterInv_init e) c hc

theorem cluster_field_invariants_witness :
    (AnomalyCluster.mk 5 12 7 [5, 12] [3, 7] ["high", "extreme"]).timestamps.head? =
      some (AnomalyCluster.mk 5 12 7 [5, 12] [3, 7] ["high", "extreme"]).start_time ∧
    (AnomalyCluster.mk 5 12 7 [5, 12] [3, 7] ["high", "extreme"]).timestamps.getLast? =
      some (AnomalyCluster.mk 5 12 7 [5, 12] [3, 7] ["high", "extreme"]).end_time ∧
    (AnomalyCluster.mk 5 12 7 [5, 12] [3, 7] ["high", "extreme"]).values.max? =
      some (AnomalyCluster.mk 5 12 7 [5, 12] [3, 7] ["high", "extreme"]).max_value :=
  cluster_field_invariants evs9
    (AnomalyCluster.mk 5 12 7 [5, 12] [3, 7] ["high", "extreme"])
    (by with_unfolding_all decide)

/-- C10: a cgroup whose CPU rate series has 50 or fewer samples never
enters the fingerprint's autocorrelation branch, so has_periodicity is
false, dominant_period_lag is 0, and the workload label can never start
with "Periodic". -/
theorem short_series_never_periodic (e : List ℚ) (c : CgroupColumns)
    (h : c.usage.length ≤ 50) :
    (fingerprint e c).has_periodicity = false ∧
    (fingerprint e c).dominant_period_lag = 0 ∧
    ((fingerprint e c).workload_type).startsWith "Periodic" = false := by
  have hlen : ((rateSeries c.usage e 1000).map fun r => r.getD 0).length ≤ 50 := by
    rw [List.length_map, length_rateSeries]; exact h
  have hp : fingerprintPeriodicity
      ((rateSeries c.usage e 1000).map fun r => r.getD 0) = (false, 0) := by
    unfold fingerprintPeriodicity
    rw [if_neg (by omega)]
  have h1 : (fingerprint e c).has_periodicity =
      (fingerprintPeriodicity
        ((rateSeries c.usage e 1000).map fun r => r.getD 0)).1 := rfl
  have h2 : (fingerprint e c).dominant_period_lag =
      (fingerprintPeriodicity
        ((rateSeries c.usage e 1000).map fun r => r.getD 0)).2 := rfl
  have h3 : (fingerprint e c).workload_type =
      (burstSection c (workloadType0
        (fingerprintPeriodicity ((rateSeries c.usage e 1000).map fun r => r.getD 0))
        (quantileQ ((rateSeries c.usage e 1000).map fun r => r.getD 0) (19/20) /
          max (quantileQ ((rateSeries c.usage e 1000).map fun r => r.getD 0) (1/2))
            (1/1000))
        (cpuPattern c.usage e)
        (if 0 < c.user.getLastD 0 then
          c.system.getLastD 0 / max (c.user.getLastD 0) 1
        else 0))).2.2 := rfl
  refine ⟨by rw [h1, hp], by rw [h2, hp], ?_⟩
  rw [h3]
  rcases workloadType0_no_periodicity
      (fingerprintPeriodicity ((rateSeries c.usage e 1000).map fun r => r.getD 0))
      (quantileQ ((rateSeries c.usage e 1000).map fun r => r.getD 0) (19/20) /
        max (quantileQ ((rateSeries c.usage e 1000).map fun r => r.getD 0) (1/2))
          (1/1000))
      (cpuPattern c.usage e)
      (if 0 < c.user.getLastD 0 then
        c.system.getLastD 0 / max (c.user.getLastD 0) 1
      else 0)
      (by rw [hp]) with hw | hw | hw | hw | hw <;>
    rcases burstSection_workload c _ with hbs | hbs <;>
    rw [hbs, hw] <;> with_unfolding_all decide

theorem short_series_never_periodic_witness :
    (fingerprint c1elapsed c1cols).has_periodicity = false ∧
    (fingerprint c1elapsed c1cols).dominant_period_lag = 0 ∧
    ((fingerprint c1elapsed c1cols).workload_type).startsWith "Periodic" = false :=
  short_series_never_periodic c1elapsed c1cols (by with_unfolding_all decide)

end CgroupVerify
